import Mathlib

set_option maxHeartbeats 1000000
set_option maxRecDepth 4000

/-!
Shallow embedding of the FileCheck comparison engine
(`src/src/fc/filecheck.h`) and proofs about the claims of `spec.md`.

Modelling conventions, used uniformly below:

* Bytes and wide characters are `Nat` values; buffers, lines and paths are
  `List Nat`.  File contents stand in for files: the Win32 read/map layer
  (`CreateFileW`, `ReadFile`, `MapViewOfFile`) is assumed to deliver the
  file's bytes unchanged, so functions that take paths in C take contents
  here.
* `size_t` is modelled as `Nat` with `SIZE_MAX = 2^64 - 1`; the only spots
  where the C code can wrap a `size_t` are `x + 1` computations, modelled
  by `sAdd1` (addition modulo `2^64`).  `(size_t)-1` is the same value
  `SIZE_MAX`.
* `UINT` (32-bit) hash arithmetic is `Nat` arithmetic reduced `% 2^32` at
  each step, exactly like the machine multiplication/addition.
* The C code allocates `PredecessorsA`, `PredecessorsB`, `LcsA`, `LcsB`
  with plain `HeapAlloc` (no `HEAP_ZERO_MEMORY`), so those cells start as
  uninitialized heap memory.  The embedding models the uninitialized
  contents as the fixed value `SIZE_MAX`; wherever a theorem depends on a
  cell that the C code never wrote, this is one admissible concrete
  behaviour of the program and is called out in the theorem's comment.
* Allocation failure paths are not modelled (allocation is assumed to
  succeed); `FC_ERROR_MEMORY` still arises where the code returns it on a
  non-allocation condition.
* The OS Unicode lowercasing reached through `_FC_StringToLowerUnicode` /
  `CharLowerW` is a parameter `uniLower` of the text pipeline; the OS path
  resolution `RtlDosPathNameToNtPathName_U_WithStatus` (together with the
  `RtlDetermineDosPathNameType_U` classification) is a parameter
  `resolve` of the path pipeline.  Concrete spec-modelled instances are
  provided for witnesses.
* `FC_ERROR_IO` of the C enum is spelled `FC_ERROR_IOERR` here.
-/

/-- Return codes of the library (`FC_RESULT` in `filecheck.h`). -/
inductive FC_RESULT where
  | FC_OK
  | FC_DIFFERENT
  | FC_ERROR_IOERR
  | FC_ERROR_INVALID_PARAM
  | FC_ERROR_MEMORY
  deriving DecidableEq, Repr

/-- Comparison modes (`FC_MODE`). -/
inductive FC_MODE where
  | FC_MODE_TEXT_ASCII
  | FC_MODE_TEXT_UNICODE
  | FC_MODE_BINARY
  | FC_MODE_AUTO
  deriving DecidableEq, Repr

/-- Kinds of difference blocks (`FC_DIFF_TYPE`). -/
inductive FC_DIFF_TYPE where
  | FC_DIFF_TYPE_NONE
  | FC_DIFF_TYPE_CHANGE
  | FC_DIFF_TYPE_DELETE
  | FC_DIFF_TYPE_ADD
  | FC_DIFF_TYPE_SIZE
  deriving DecidableEq, Repr

/-- A reported difference block (`FC_DIFF_BLOCK`); the C field `Type` is
spelled `BlockType`. -/
structure FC_DIFF_BLOCK where
  BlockType : FC_DIFF_TYPE
  StartA : Nat
  EndA : Nat
  StartB : Nat
  EndB : Nat
  deriving DecidableEq, Repr

/-- Comparison configuration (`FC_CONFIG`).  The callback and `UserData`
are modelled by returning the list of emitted blocks, in emission order;
`BufferLines` is reserved/unused in the source. -/
structure FC_CONFIG where
  Mode : FC_MODE
  Flags : Nat
  ResyncLines : Nat
  deriving DecidableEq, Repr

def FC_IGNORE_CASE : Nat := 1
def FC_IGNORE_WS : Nat := 2
def FC_SHOW_LINE_NUMS : Nat := 4
def FC_RAW_TABS : Nat := 8

/-- Bitmask test on the `Flags` word. -/
def hasFlag (flags mask : Nat) : Bool := flags &&& mask != 0

def UINT_MOD : Nat := 2 ^ 32
def USIZE_MOD : Nat := 2 ^ 64
def SIZE_MAX : Nat := 2 ^ 64 - 1

/-- `size_t` increment, wrapping like the machine (`x + 1` on `SIZE_MAX`
gives `0`). -/
def sAdd1 (x : Nat) : Nat := (x + 1) % USIZE_MOD

/-- `_FC_ToLowerAscii`: ASCII A-Z to a-z, all other bytes unchanged. -/
def _FC_ToLowerAscii (c : Nat) : Nat := if 65 ≤ c ∧ c ≤ 90 then c + 32 else c

/-- `_FC_ComputeHash`: the 31-multiplier rolling 32-bit hash with optional
whitespace skipping and ASCII case folding. -/
def _FC_ComputeHash (s : List Nat) (flags : Nat) : Nat :=
  s.foldl
    (fun h c =>
      if hasFlag flags FC_IGNORE_WS ∧ (c = 32 ∨ c = 9) then h
      else (h * 31 + (if hasFlag flags FC_IGNORE_CASE then _FC_ToLowerAscii c else c)) % UINT_MOD)
    0

/-- `_FC_HashLine`: for `FC_MODE_TEXT_UNICODE` with `FC_IGNORE_CASE` the
line is first lowercased through the OS (`_FC_StringToLowerUnicode`,
modelled by the parameter `uniLower`); otherwise `_FC_ComputeHash` runs
directly. -/
def _FC_HashLine (uniLower : List Nat → List Nat) (s : List Nat) (cfg : FC_CONFIG) : Nat :=
  if hasFlag cfg.Flags FC_IGNORE_CASE ∧ cfg.Mode = FC_MODE.FC_MODE_TEXT_UNICODE then
    _FC_ComputeHash (uniLower s) cfg.Flags
  else
    _FC_ComputeHash s cfg.Flags

/-- `_FC_BufferReplace` specialised to the only shapes the parser uses:
a single-byte old pattern replaced by a byte list (possibly empty). -/
def _FC_BufferReplaceByte (s : List Nat) (old : Nat) (rep : List Nat) : List Nat :=
  (s.map (fun c => if c = old then rep else [c])).flatten

/-- The per-line normalisation performed by `_FC_ParseLines`: tab
expansion to four spaces unless `FC_RAW_TABS`, then removal of spaces and
tabs under `FC_IGNORE_WS`. -/
def _FC_NormalizeLine (cfg : FC_CONFIG) (s : List Nat) : List Nat :=
  let s1 := if hasFlag cfg.Flags FC_RAW_TABS then s else _FC_BufferReplaceByte s 9 [32, 32, 32, 32]
  if hasFlag cfg.Flags FC_IGNORE_WS then
    _FC_BufferReplaceByte (_FC_BufferReplaceByte s1 32 []) 9 []
  else s1

def _FC_IsNewlineByte (c : Nat) : Bool := c == 10 || c == 13

theorem fcDropWhileLen (p : Nat → Bool) : ∀ l : List Nat, (l.dropWhile p).length ≤ l.length
  | [] => Nat.le_refl 0
  | c :: rest => by
    simp only [List.dropWhile_cons]
    cases p c with
    | true => exact Nat.le_trans (fcDropWhileLen p rest) (Nat.le_succ _)
    | false => exact Nat.le_refl _

theorem fcSplitDec (c : Nat) (rest : List Nat) :
    (((c :: rest).dropWhile (fun b => !_FC_IsNewlineByte b)).dropWhile _FC_IsNewlineByte).length <
      (c :: rest).length := by
  cases h : _FC_IsNewlineByte c with
  | true =>
    have h1 : ((c :: rest).dropWhile (fun b => !_FC_IsNewlineByte b)) = c :: rest := by
      simp [List.dropWhile_cons, h]
    rw [h1, List.dropWhile_cons, if_pos h]
    exact Nat.lt_succ_of_le (fcDropWhileLen _ rest)
  | false =>
    have h1 : ((c :: rest).dropWhile (fun b => !_FC_IsNewlineByte b))
        = rest.dropWhile (fun b => !_FC_IsNewlineByte b) := by
      simp [List.dropWhile_cons, h]
    rw [h1]
    exact Nat.lt_succ_of_le (Nat.le_trans (fcDropWhileLen _ _) (fcDropWhileLen _ rest))

/-- The line-boundary scan of `_FC_ParseLines`, written with explicit
fuel so that it is structurally recursive (the wrapper passes the buffer
length, which `fcSplitDec` shows is always enough): take the run up to
the next CR/LF, skip the whole CR/LF run, repeat; the loop's guards make
a trailing CR/LF run produce no further line while any other line (also
the empty one produced when the buffer starts with CR/LF) is kept. -/
def _FC_SplitLinesAux : Nat → List Nat → List (List Nat)
  | 0, _ => []
  | fuel + 1, buf =>
    match buf with
    | [] => []
    | c :: rest =>
      ((c :: rest).takeWhile (fun b => !_FC_IsNewlineByte b)) ::
        _FC_SplitLinesAux fuel
          (((c :: rest).dropWhile (fun b => !_FC_IsNewlineByte b)).dropWhile _FC_IsNewlineByte)

def _FC_SplitLines (buf : List Nat) : List (List Nat) := _FC_SplitLinesAux buf.length buf

/-- Internal line record (`_FC_LINE`); `Length` is `Text.length`. -/
structure _FC_LINE where
  Text : List Nat
  Hash : Nat
  deriving DecidableEq, Repr

/-- `_FC_ParseLines`: split into lines, normalise, drop lines that became
empty under `FC_IGNORE_WS`, and fingerprint the survivors. -/
def _FC_ParseLines (uniLower : List Nat → List Nat) (cfg : FC_CONFIG) (buf : List Nat) :
    List _FC_LINE :=
  (_FC_SplitLines buf).filterMap
    (fun raw =>
      let t := _FC_NormalizeLine cfg raw
      if hasFlag cfg.Flags FC_IGNORE_WS ∧ t.length = 0 then none
      else some ⟨t, _FC_HashLine uniLower t cfg⟩)

/-- Pointwise array update; the arrays of the LCS context are modelled as
functions `Nat → Nat`. -/
def updFn (f : Nat → Nat) (i v : Nat) : Nat → Nat := fun j => if j = i then v else f j

/-- The Hunt-McIlroy working state (`_FC_LCS_CONTEXT` plus the running
`LcsLength`).  `Thresholds 0` is `(size_t)-1` in the source, the other
slots are initialised to `SIZE_MAX`, which is the same value; the
predecessor arrays start as uninitialized heap memory, modelled as
`SIZE_MAX`. -/
structure _FC_LCS_CONTEXT where
  Thresholds : Nat → Nat
  PredecessorsA : Nat → Nat
  PredecessorsB : Nat → Nat
  LcsLength : Nat

def _FC_LcsInit : _FC_LCS_CONTEXT :=
  ⟨fun _ => SIZE_MAX, fun _ => SIZE_MAX, fun _ => SIZE_MAX, 0⟩

/-- The match list for a hash: positions of that hash in B in descending
order (the source builds per-hash singly linked lists by push-front while
scanning B ascending, then walks them from the head). -/
def _FC_MatchesOf (B : List Nat) (h : Nat) : List Nat :=
  ((List.range B.length).filter (fun j => B.getD j 0 == h)).reverse

/-- The binary search of `_FC_FindLcs`'s inner loop (`low`/`high` walk
over `Thresholds[1..LcsLength]`), written with explicit fuel; the wrapper
supplies fuel strictly larger than the interval, so the fuel never runs
out. -/
def _FC_LcsBinSearchAux (th : Nat → Nat) (b : Nat) : Nat → Nat → Nat → Nat
  | 0, low, _ => low
  | fuel + 1, low, high =>
    if low ≤ high then
      let mid := low + (high - low) / 2
      if th mid < b then _FC_LcsBinSearchAux th b fuel (mid + 1) high
      else _FC_LcsBinSearchAux th b fuel low (mid - 1)
    else low

def _FC_LcsBinSearch (th : Nat → Nat) (b : Nat) (len : Nat) : Nat :=
  _FC_LcsBinSearchAux th b (len + 2) 1 len

/-- One iteration of the match loop: binary-search the threshold slot `k`
for the candidate position `b` of line `i` and update thresholds and
predecessors when `b` improves slot `k`. -/
def _FC_LcsUpdate (st : _FC_LCS_CONTEXT) (i b : Nat) : _FC_LCS_CONTEXT :=
  let k := _FC_LcsBinSearch st.Thresholds b st.LcsLength
  if b < st.Thresholds k then
    { Thresholds := updFn st.Thresholds k b
      PredecessorsA := updFn st.PredecessorsA i (if 1 < k then st.Thresholds (k - 1) else SIZE_MAX)
      PredecessorsB := updFn st.PredecessorsB i b
      LcsLength := if st.LcsLength < k then k else st.LcsLength }
  else st

/-- Process all matches of line `i` of A (walked in the match list's
descending order). -/
def _FC_LcsLine (st : _FC_LCS_CONTEXT) (i : Nat) (bs : List Nat) : _FC_LCS_CONTEXT :=
  bs.foldl (fun s b => _FC_LcsUpdate s i b) st

/-- The main threshold loop of `_FC_FindLcs` over all lines of A. -/
def _FC_LcsScan (A B : List Nat) : _FC_LCS_CONTEXT :=
  A.enum.foldl (fun st p => _FC_LcsLine st p.1 (_FC_MatchesOf B p.2)) _FC_LcsInit

/-- The traceback's backward scans
(`for (j = bound - 1; j != (size_t)-1; --j) if (PredecessorsB[j] == target) ...`). -/
def _FC_TraceFindA (pb : Nat → Nat) (bound target : Nat) : Option Nat :=
  (List.range bound).reverse.find? (fun j => pb j == target)

/-- The traceback loop of `_FC_FindLcs`: fills `LcsA`/`LcsB` from index
`LcsLength - 1` downwards; on `PredecessorsA` hitting the sentinel the
loop breaks, leaving the lower slots as uninitialized heap memory
(modelled as `SIZE_MAX`); when the backward scan finds no line, the
cursor `currentA` stays where it was, exactly as in the source. -/
def _FC_TraceLoop (st : _FC_LCS_CONTEXT) : Nat → Nat → Nat → List (Nat × Nat)
  | 0, _, _ => []
  | i + 1, cA, cB =>
    let prevB := st.PredecessorsA cA
    if prevB = SIZE_MAX then List.replicate i (SIZE_MAX, SIZE_MAX) ++ [(cA, cB)]
    else
      (_FC_TraceLoop st i
        (match _FC_TraceFindA st.PredecessorsB cA prevB with
          | some j => j
          | none => cA)
        prevB) ++ [(cA, cB)]

def _FC_Traceback (st : _FC_LCS_CONTEXT) (nA : Nat) : List (Nat × Nat) :=
  let cB := st.Thresholds st.LcsLength
  _FC_TraceLoop st st.LcsLength
    (match _FC_TraceFindA st.PredecessorsB nA cB with
      | some j => j
      | none => 0)
    cB

/-- Length of the run of consecutive pairs continuing `p`
(`LcsA[i+1] == LcsA[i] + 1 && LcsB[i+1] == LcsB[i] + 1`, with the
source's `size_t` wrap on the `+ 1`). -/
def _FC_RunLen : (Nat × Nat) → List (Nat × Nat) → Nat
  | _, [] => 0
  | p, q :: rest =>
    if q.1 = sAdd1 p.1 ∧ q.2 = sAdd1 p.2 then _FC_RunLen q rest + 1 else 0

theorem fcDropLenLe (n : Nat) (l : List (Nat × Nat)) : (l.drop n).length ≤ l.length := by
  simp [List.length_drop]

/-- The run scan of `_FC_FilterLcsForResync`, written with explicit fuel
so that it is structurally recursive (the wrapper passes the list length,
which is always enough because each step consumes at least one pair):
keep each maximal run iff its length is at least `ResyncLines`. -/
def _FC_FilterRunsAux (r : Nat) : Nat → List (Nat × Nat) → List (Nat × Nat)
  | 0, _ => []
  | fuel + 1, l =>
    match l with
    | [] => []
    | p :: rest =>
      (if r ≤ _FC_RunLen p rest + 1 then p :: rest.take (_FC_RunLen p rest) else []) ++
        _FC_FilterRunsAux r fuel (rest.drop (_FC_RunLen p rest))

def _FC_FilterRuns (r : Nat) (l : List (Nat × Nat)) : List (Nat × Nat) :=
  _FC_FilterRunsAux r l.length l

/-- `_FC_FilterLcsForResync`: identity copy when the LCS is empty or the
threshold is at most 1, otherwise the run filter. -/
def _FC_FilterLcsForResync (l : List (Nat × Nat)) (resync : Nat) : List (Nat × Nat) :=
  if l.length = 0 ∨ resync ≤ 1 then l else _FC_FilterRuns resync l

/-- The block-emission loop of `_FC_ProcessLcs`, cursors `ia`/`ib`
advancing past each anchor with the source's `size_t` increment; the
final sentinel step uses the line counts as anchors. -/
def _FC_EmitBlocks (nA nB : Nat) : List (Nat × Nat) → Nat → Nat → List FC_DIFF_BLOCK
  | [], ia, ib =>
    if ia < nA ∨ ib < nB then
      [⟨if ia < nA ∧ ib < nB then .FC_DIFF_TYPE_CHANGE
        else if ib < nB then .FC_DIFF_TYPE_ADD else .FC_DIFF_TYPE_DELETE, ia, nA, ib, nB⟩]
    else []
  | (aa, bb) :: rest, ia, ib =>
    (if ia < aa ∨ ib < bb then
      [⟨if ia < aa ∧ ib < bb then .FC_DIFF_TYPE_CHANGE
        else if ib < bb then .FC_DIFF_TYPE_ADD else .FC_DIFF_TYPE_DELETE, ia, aa, ib, bb⟩]
    else []) ++ _FC_EmitBlocks nA nB rest (sAdd1 aa) (sAdd1 bb)

/-- `_FC_ProcessLcs`: identical when the (filtered) LCS covers both
files, else walk the anchors and emit blocks. -/
def _FC_ProcessLcs (nA nB : Nat) (l : List (Nat × Nat)) : FC_RESULT × List FC_DIFF_BLOCK :=
  if l.length = nA ∧ l.length = nB then (.FC_OK, [])
  else (.FC_DIFFERENT, _FC_EmitBlocks nA nB l 0 0)

/-- The LCS pair recovery of `_FC_FindLcs` (scan plus traceback), exposed
for the statements about the LCS engine; the first component is the
computed `LcsLength`. -/
def _FC_FindLcsPairs (A B : List Nat) : Nat × List (Nat × Nat) :=
  let st := _FC_LcsScan A B
  (st.LcsLength, if 0 < st.LcsLength then _FC_Traceback st A.length else [])

/-- `_FC_FindLcs` over the two hash sequences: the empty-side early
returns, the full-cover identical check, the resync filter, and the
source's misreading of an all-dropped filter result
(`FilteredLcsA == NULL` with `LcsLength > 0`) as a memory failure. -/
def _FC_FindLcs (A B : List Nat) (resync : Nat) : FC_RESULT × List FC_DIFF_BLOCK :=
  if A.length = 0 ∧ B.length = 0 then (.FC_OK, [])
  else if 0 < A.length ∧ B.length = 0 then (.FC_DIFFERENT, [])
  else if A.length = 0 ∧ 0 < B.length then (.FC_DIFFERENT, [])
  else
    let lp := _FC_FindLcsPairs A B
    if lp.1 = A.length ∧ lp.1 = B.length then (.FC_OK, [])
    else
      let f := _FC_FilterLcsForResync lp.2 resync
      if 0 < lp.1 ∧ f.length = 0 then (.FC_ERROR_MEMORY, [])
      else _FC_ProcessLcs A.length B.length f

/-- `_FC_CompareFilesText` on the two file contents: parse both sides and
run the LCS engine on the fingerprint sequences. -/
def _FC_CompareFilesText (uniLower : List Nat → List Nat) (cfg : FC_CONFIG)
    (buf1 buf2 : List Nat) : FC_RESULT × List FC_DIFF_BLOCK :=
  _FC_FindLcs ((_FC_ParseLines uniLower cfg buf1).map _FC_LINE.Hash)
    ((_FC_ParseLines uniLower cfg buf2).map _FC_LINE.Hash) cfg.ResyncLines

/-- The byte loop of `_FC_CompareFilesBinary` over the two mapped views,
emitting one repurposed change block per differing offset. -/
def _FC_BinScan : List Nat → List Nat → Nat → List FC_DIFF_BLOCK
  | x :: xs, y :: ys, i =>
    (if x ≠ y then [⟨.FC_DIFF_TYPE_CHANGE, i, x, i, y⟩] else []) ++ _FC_BinScan xs ys (i + 1)
  | _, _, _ => []

/-- `_FC_CompareFilesBinary` on the two file contents: size mismatch
block, empty-files short cut, else the full byte scan; the result flips
to `FC_DIFFERENT` on the first mismatch and the scan continues to the
end. -/
def _FC_CompareFilesBinary (a b : List Nat) : FC_RESULT × List FC_DIFF_BLOCK :=
  if a.length ≠ b.length then
    (.FC_DIFFERENT, [⟨.FC_DIFF_TYPE_SIZE, a.length, a.length, b.length, b.length⟩])
  else if a.length = 0 then (.FC_OK, [])
  else
    (if (_FC_BinScan a b 0).isEmpty then .FC_OK else .FC_DIFFERENT, _FC_BinScan a b 0)

/-- `_FC_CountPrintable`: bytes in 32..126 or tab/LF/CR. -/
def _FC_CountPrintable (buf : List Nat) : Nat :=
  (buf.filter (fun c => decide ((32 ≤ c ∧ c ≤ 126) ∨ c = 9 ∨ c = 10 ∨ c = 13))).length

/-- `_FC_IsProbablyTextBuffer`: UTF BOM detection, the zero-byte binary
cut-off, and the 0.90 printable-ratio test.  The C ratio test divides in
`double`; `9 * length ≤ 10 * printable` is the exact rational form of
`printable / length ≥ 0.90`, which agrees with the `double` computation
away from the representation error of `0.90` (none of the claims sits on
that boundary). -/
def _FC_IsProbablyTextBuffer (buf : List Nat) : Bool :=
  if buf.length = 0 then false
  else if 3 ≤ buf.length ∧ buf.take 3 = [239, 187, 191] then true
  else if 2 ≤ buf.length ∧ buf.take 2 = [255, 254] then true
  else if 2 ≤ buf.length ∧ buf.take 2 = [254, 255] then true
  else if buf.contains 0 then false
  else 9 * buf.length ≤ 10 * _FC_CountPrintable buf

/-- `_FC_IsProbablyTextFileW` reads at most the first 4096 bytes and
classifies them; a zero-byte read also yields FALSE, which coincides with
the classifier's empty-buffer answer. -/
def _FC_IsProbablyTextFileW (content : List Nat) : Bool :=
  _FC_IsProbablyTextBuffer (content.take 4096)

/-- `_FC_CompareFilesInternal`: mode dispatch, with AUTO choosing text
iff both files classify as text. -/
def _FC_CompareFilesInternal (uniLower : List Nat → List Nat) (cfg : FC_CONFIG)
    (buf1 buf2 : List Nat) : FC_RESULT × List FC_DIFF_BLOCK :=
  match cfg.Mode with
  | .FC_MODE_TEXT_ASCII => _FC_CompareFilesText uniLower cfg buf1 buf2
  | .FC_MODE_TEXT_UNICODE => _FC_CompareFilesText uniLower cfg buf1 buf2
  | .FC_MODE_BINARY => _FC_CompareFilesBinary buf1 buf2
  | .FC_MODE_AUTO =>
    if _FC_IsProbablyTextFileW buf1 && _FC_IsProbablyTextFileW buf2 then
      _FC_CompareFilesText uniLower cfg buf1 buf2
    else _FC_CompareFilesBinary buf1 buf2

/-- `towlower` as used by `_wcsicmp`/`_wcsnicmp` on the characters that
occur in the reserved-name table and NT path literals (ASCII letters). -/
def _FC_WideLower (c : Nat) : Nat := if 65 ≤ c ∧ c ≤ 90 then c + 32 else c

/-- `_wcsicmp(a, b) == 0`: case-insensitive equality of two wide
strings. -/
def _FC_WcsIEq (a b : List Nat) : Bool :=
  a.map _FC_WideLower == b.map _FC_WideLower

/-- `_wcsnicmp(s, pat, pat.length) == 0`: `pat` is a case-insensitive
leading pattern of `s`. -/
def _FC_WcsNIEqHead (pat s : List Nat) : Bool :=
  (s.take pat.length).map _FC_WideLower == pat.map _FC_WideLower

/-- `g_ReservedDevices`: CON, PRN, AUX, NUL, COM1..COM9, LPT1..LPT9 as
wide character codes. -/
def g_ReservedDevices : List (List Nat) :=
  [[67, 79, 78], [80, 82, 78], [65, 85, 88], [78, 85, 76],
   [67, 79, 77, 49], [67, 79, 77, 50], [67, 79, 77, 51], [67, 79, 77, 52], [67, 79, 77, 53],
   [67, 79, 77, 54], [67, 79, 77, 55], [67, 79, 77, 56], [67, 79, 77, 57],
   [76, 80, 84, 49], [76, 80, 84, 50], [76, 80, 84, 51], [76, 80, 84, 52], [76, 80, 84, 53],
   [76, 80, 84, 54], [76, 80, 84, 55], [76, 80, 84, 56], [76, 80, 84, 57]]

/-- The basename extraction of `_FC_ToCanonicalPath` (`wcsrchr` for a
backslash; without one, the whole path is the base component). -/
def _FC_BaseNameOf (p : List Nat) : List Nat :=
  match (List.range p.length).reverse.find? (fun i => p.getD i 0 == 92) with
  | none => p
  | some i => p.drop (i + 1)

/-- The wide string `\Device\`. -/
def _FC_DevStr : List Nat := [92, 68, 101, 118, 105, 99, 101, 92]

/-- The wide string `\??\PIPE\`. -/
def _FC_PipeStr : List Nat := [92, 63, 63, 92, 80, 73, 80, 69, 92]

/-- `_FC_ToCanonicalPath`.  The path-type classification and the NT-path
conversion are performed by the OS (`RtlDetermineDosPathNameType_U`,
`RtlDosPathNameToNtPathName_U_WithStatus`) and are modelled by the
parameter `resolve`, which returns `none` on the rejected path types and
failed conversions.  The repository's own checks follow: the
`\Device\` / `\??\PIPE\` prefix rejection (only probed when the NT path
has at least 8 characters), the reserved-device basename rejection by
full case-insensitive comparison, and the empty-copy rejection. -/
def _FC_ToCanonicalPath (resolve : List Nat → Option (List Nat)) (p : List Nat) :
    Option (List Nat) :=
  match resolve p with
  | none => none
  | some nt =>
    if 8 ≤ nt.length ∧ (_FC_WcsNIEqHead _FC_DevStr nt || _FC_WcsNIEqHead _FC_PipeStr nt) then
      none
    else if g_ReservedDevices.any (fun d => _FC_WcsIEq (_FC_BaseNameOf nt) d) then none
    else if nt.isEmpty then none
    else some nt

/-- `FC_CompareFilesW`'s path validation and dispatch: canonicalize both
paths (short-circuiting like the C `||`), rejection mapping to
`FC_ERROR_INVALID_PARAM`; the comparison proper on the two canonical
paths is the parameter `inner`.  The C-side null checks on the paths,
the config and the callback concern pointers and are outside the
embedding. -/
def FC_CompareFilesW (resolve : List Nat → Option (List Nat))
    (inner : List Nat → List Nat → FC_RESULT) (p1 p2 : List Nat) : FC_RESULT :=
  match _FC_ToCanonicalPath resolve p1 with
  | none => .FC_ERROR_INVALID_PARAM
  | some c1 =>
    match _FC_ToCanonicalPath resolve p2 with
    | none => .FC_ERROR_INVALID_PARAM
    | some c2 => inner c1 c2

/-- Modelled from the spec: `RtlDosPathNameToNtPathName_U_WithStatus`
("Resolve the path against the OS, producing an absolute path") for
a plain relative path, resolving against the directory `C:\work` into the
NT namespace: the result is `\??\C:\work\` followed by the path, so the
final component is preserved; the empty path is malformed
(`RtlPathTypeUnknown`) and fails. -/
def rtlResolveModel (p : List Nat) : Option (List Nat) :=
  if p.isEmpty then none
  else some ([92, 63, 63, 92, 67, 58, 92, 119, 111, 114, 107, 92] ++ p)

/-- Modelled from the spec: `CharLowerW` as used by
`_FC_StringToLowerUnicode` ("a Unicode-aware lowercasing of the string
(via OS or equivalent Unicode tables)"), instantiated on the ASCII
range as a concrete stand-in for witnesses. -/
def unicodeLowerModel (s : List Nat) : List Nat := s.map _FC_ToLowerAscii

/-- Modelled from the spec: "A line is a maximal run of bytes containing
neither CR nor LF" — the maximal non-CR/LF runs of a buffer, in order
(fuel-based structural recursion, the wrapper passing the length). -/
def specMaximalRunsAux : Nat → List Nat → List (List Nat)
  | 0, _ => []
  | fuel + 1, l =>
    match l with
    | [] => []
    | c :: rest =>
      if _FC_IsNewlineByte c then specMaximalRunsAux fuel rest
      else
        (c :: rest.takeWhile (fun b => !_FC_IsNewlineByte b)) ::
          specMaximalRunsAux fuel (rest.dropWhile (fun b => !_FC_IsNewlineByte b))

def specMaximalRuns (l : List Nat) : List (List Nat) := specMaximalRunsAux l.length l

/-- Modelled from the spec: the claim's "last component … with its
extension removed" — everything before the last dot of the name, the
whole name when it has no dot. -/
def specStripExtension (nm : List Nat) : List Nat :=
  match (List.range nm.length).reverse.find? (fun i => nm.getD i 0 == 46) with
  | none => nm
  | some i => nm.take i

/-- C1: counterexample — on `A = "L1\nL2\nL3\nL4\nL5\n"`,
`B = "L1\nX\nL3\nY\nL5\n"`, text-ASCII, no flags, `ResyncLines = 2`, the
comparison does not return different with the single change block
`[1,4) × [1,4)` the claim states. -/
theorem C1_resync_counterexample :
    ¬ ((_FC_CompareFilesText unicodeLowerModel ⟨.FC_MODE_TEXT_ASCII, 0, 2⟩
          [76, 49, 10, 76, 50, 10, 76, 51, 10, 76, 52, 10, 76, 53, 10]
          [76, 49, 10, 88, 10, 76, 51, 10, 89, 10, 76, 53, 10]).1 = .FC_DIFFERENT ∧
        (_FC_CompareFilesText unicodeLowerModel ⟨.FC_MODE_TEXT_ASCII, 0, 2⟩
          [76, 49, 10, 76, 50, 10, 76, 51, 10, 76, 52, 10, 76, 53, 10]
          [76, 49, 10, 88, 10, 76, 51, 10, 89, 10, 76, 53, 10]).2 =
          [⟨.FC_DIFF_TYPE_CHANGE, 1, 4, 1, 4⟩]) := by decide

/-- C1: what the code actually does on that input — the optimal LCS is
the three single-line matches L1, L3, L5; with `ResyncLines = 2` the
resync filter drops every run, and `_FC_FindLcs` misreads the empty
filtered result (`FilteredLcsA == NULL` with `LcsLength > 0`) as an
allocation failure: the comparison returns `FC_ERROR_MEMORY` and the
callback is never invoked. -/
theorem C1_resync_amended :
    _FC_CompareFilesText unicodeLowerModel ⟨.FC_MODE_TEXT_ASCII, 0, 2⟩
      [76, 49, 10, 76, 50, 10, 76, 51, 10, 76, 52, 10, 76, 53, 10]
      [76, 49, 10, 88, 10, 76, 51, 10, 89, 10, 76, 53, 10] = (.FC_ERROR_MEMORY, []) := by
  decide

/-- C4: the LCS engine's traceback is broken — on the fingerprint
sequences `A = [0,1,1]`, `B = [1,0,1,0,1]` (no uninitialized cell is ever
read on this input) the computed `LcsLength` is 3 but the recovered pairs
are `(2,2), (2,2), (2,4)`: the same A-line three times, with
non-increasing B-indices, which is not a common subsequence of position
pairs at all, let alone a longest one with lexicographically smallest
b-indices.  (`PredecessorsB[i]` keeps only the last update of line `i`,
so the backward scans cannot recover the chains the thresholds
recorded.) -/
theorem C4_lcs_code_bug :
    _FC_FindLcsPairs [0, 1, 1] [1, 0, 1, 0, 1] = (3, [(2, 2), (2, 2), (2, 4)]) ∧
      ¬ List.Pairwise (fun p q : Nat × Nat => p.1 < q.1 ∧ p.2 < q.2)
          [(2, 2), (2, 2), (2, 4)] := by decide

/-- C6: in AUTO mode, file A = UTF-8 BOM + `"hello\n"` and
file B = `"hello\n"` both classify as text, but the line extractor keeps
the BOM bytes inside the first line of A, so the comparison returns
different with one change block `[0,1) × [0,1)` instead of the identical
the claim (and the intent of `Test_UnicodeBomEquivalence`) requires. -/
theorem C6_bom_code_bug :
    _FC_IsProbablyTextFileW [239, 187, 191, 104, 101, 108, 108, 111, 10] = true ∧
    _FC_IsProbablyTextFileW [104, 101, 108, 108, 111, 10] = true ∧
    _FC_CompareFilesInternal unicodeLowerModel ⟨.FC_MODE_AUTO, 0, 2⟩
      [239, 187, 191, 104, 101, 108, 108, 111, 10] [104, 101, 108, 108, 111, 10] =
      (.FC_DIFFERENT, [⟨.FC_DIFF_TYPE_CHANGE, 0, 1, 0, 1⟩]) ∧
    FC_RESULT.FC_DIFFERENT ≠ .FC_OK := by decide

/-- C8: the block invariants fail — comparing `"a\nb\nb"` (3 lines) with
`"b\na\nb\na\nb"` (5 lines), text-ASCII, no flags, `ResyncLines = 1`, the
broken traceback pairs `(2,2),(2,2),(2,4)` make the emitter produce an
add block with `StartA = 3 > EndA = 2` (also violating add ⇒
`StartA = EndA`, and `StartA` fails to increase strictly).  No
uninitialized cell is read on this input. -/
theorem C8_blocks_code_bug :
    _FC_CompareFilesText unicodeLowerModel ⟨.FC_MODE_TEXT_ASCII, 0, 1⟩
      [97, 10, 98, 10, 98] [98, 10, 97, 10, 98, 10, 97, 10, 98] =
      (.FC_DIFFERENT,
        [⟨.FC_DIFF_TYPE_CHANGE, 0, 2, 0, 2⟩, ⟨.FC_DIFF_TYPE_ADD, 3, 2, 3, 4⟩]) ∧
    ¬ (3 ≤ 2) := by decide

/-- C9: outcome classes do not commute — comparing `"a\nb\na"` with
`"b\nb\na\nb"` (text-ASCII, no flags, `ResyncLines = 2`) returns
`FC_ERROR_MEMORY` with no callback (the resync filter drops both
single-line runs of the chosen LCS and the engine misreads that as an
allocation failure), while the swapped comparison picks an LCS that forms
one run of length 2 and returns `FC_DIFFERENT`.  No uninitialized cell is
read in either direction. -/
theorem C9_commutativity_code_bug :
    _FC_CompareFilesText unicodeLowerModel ⟨.FC_MODE_TEXT_ASCII, 0, 2⟩
      [97, 10, 98, 10, 97] [98, 10, 98, 10, 97, 10, 98] = (.FC_ERROR_MEMORY, []) ∧
    (_FC_CompareFilesText unicodeLowerModel ⟨.FC_MODE_TEXT_ASCII, 0, 2⟩
      [98, 10, 98, 10, 97, 10, 98] [97, 10, 98, 10, 97]).1 = .FC_DIFFERENT ∧
    ¬ ((FC_RESULT.FC_ERROR_MEMORY = .FC_DIFFERENT) ↔
        (FC_RESULT.FC_DIFFERENT = .FC_DIFFERENT)) := by decide

/-- C7: counterexample — the buffer consisting of a single LF has no
maximal non-CR/LF run, so the claim demands zero lines, but the extractor
produces one empty line. -/
theorem C7_split_counterexample :
    _FC_SplitLines [10] = [[]] ∧ _FC_SplitLines [10] ≠ [] ∧
      specMaximalRuns [10] = [] := by decide

theorem fcSplitAuxCongr : ∀ n m buf, buf.length ≤ n → buf.length ≤ m →
    _FC_SplitLinesAux n buf = _FC_SplitLinesAux m buf := by
  intro n
  induction n with
  | zero =>
    intro m buf hn _
    have : buf = [] := List.length_eq_zero.mp (Nat.le_antisymm hn (Nat.zero_le _))
    subst this
    cases m <;> rfl
  | succ n ih =>
    intro m buf hn hm
    cases buf with
    | nil => cases m <;> rfl
    | cons c rest =>
      cases m with
      | zero => exact absurd hm (by simp)
      | succ m =>
        simp only [_FC_SplitLinesAux]
        have hd := fcSplitDec c rest
        exact congrArg _ (ih m _ (Nat.le_of_lt_succ (Nat.lt_of_lt_of_le hd hn))
          (Nat.le_of_lt_succ (Nat.lt_of_lt_of_le hd hm)))

theorem fcSplitConsEq (c : Nat) (rest : List Nat) :
    _FC_SplitLines (c :: rest) =
      ((c :: rest).takeWhile (fun b => !_FC_IsNewlineByte b)) ::
        _FC_SplitLines (((c :: rest).dropWhile (fun b => !_FC_IsNewlineByte b)).dropWhile
          _FC_IsNewlineByte) := by
  show _FC_SplitLinesAux (rest.length + 1) (c :: rest) = _
  simp only [_FC_SplitLinesAux]
  exact congrArg _ (fcSplitAuxCongr _ _ _ (Nat.le_of_lt_succ (fcSplitDec c rest)) (Nat.le_refl _))

theorem fcSpecAuxCongr : ∀ n m buf, buf.length ≤ n → buf.length ≤ m →
    specMaximalRunsAux n buf = specMaximalRunsAux m buf := by
  intro n
  induction n with
  | zero =>
    intro m buf hn _
    have : buf = [] := List.length_eq_zero.mp (Nat.le_antisymm hn (Nat.zero_le _))
    subst this
    cases m <;> rfl
  | succ n ih =>
    intro m buf hn hm
    cases buf with
    | nil => cases m <;> rfl
    | cons c rest =>
      cases m with
      | zero => exact absurd hm (by simp)
      | succ m =>
        simp only [specMaximalRunsAux]
        cases h : _FC_IsNewlineByte c with
        | true =>
          rw [if_pos rfl, if_pos rfl]
          exact ih m rest (Nat.le_of_succ_le_succ hn) (Nat.le_of_succ_le_succ hm)
        | false =>
          rw [if_neg (by simp), if_neg (by simp)]
          have hlen : (rest.dropWhile (fun b => !_FC_IsNewlineByte b)).length ≤ rest.length :=
            fcDropWhileLen _ rest
          rw [ih m _ (Nat.le_trans hlen (Nat.le_of_succ_le_succ hn))
            (Nat.le_trans hlen (Nat.le_of_succ_le_succ hm))]

theorem fcSpecConsEq (c : Nat) (rest : List Nat) :
    specMaximalRuns (c :: rest) =
      if _FC_IsNewlineByte c then specMaximalRuns rest
      else
        (c :: rest.takeWhile (fun b => !_FC_IsNewlineByte b)) ::
          specMaximalRuns (rest.dropWhile (fun b => !_FC_IsNewlineByte b)) := by
  show specMaximalRunsAux (rest.length + 1) (c :: rest) = _
  simp only [specMaximalRunsAux]
  cases h : _FC_IsNewlineByte c with
  | true =>
    rw [if_pos rfl, if_pos rfl]
    rfl
  | false =>
    rw [if_neg (by simp), if_neg (by simp),
      fcSpecAuxCongr rest.length (rest.dropWhile (fun b => !_FC_IsNewlineByte b)).length _
        (fcDropWhileLen _ rest) (Nat.le_refl _)]
    rfl

theorem fcSpecSkipNl : ∀ buf : List Nat,
    specMaximalRuns (buf.dropWhile _FC_IsNewlineByte) = specMaximalRuns buf := by
  intro buf
  induction buf with
  | nil => rfl
  | cons c rest ih =>
    cases h : _FC_IsNewlineByte c with
    | true =>
      have h2 : (c :: rest).dropWhile _FC_IsNewlineByte = rest.dropWhile _FC_IsNewlineByte := by
        simp [List.dropWhile_cons, h]
      rw [h2, ih, fcSpecConsEq, if_pos h]
    | false =>
      have h2 : (c :: rest).dropWhile _FC_IsNewlineByte = c :: rest := by
        simp [List.dropWhile_cons, h]
      rw [h2]

theorem fcDropWhileHead (p : Nat → Bool) : ∀ (l : List Nat) (c : Nat) (r : List Nat),
    l.dropWhile p = c :: r → p c = false := by
  intro l
  induction l with
  | nil => intro c r h; cases h
  | cons d rest ih =>
    intro c r h
    rw [List.dropWhile_cons] at h
    cases hd : p d with
    | true => rw [if_pos hd] at h; exact ih c r h
    | false => rw [if_neg (by simp [hd])] at h; cases h; exact hd

theorem fcDropNlFlag (l : List Nat) :
    (if _FC_IsNewlineByte ((l.dropWhile _FC_IsNewlineByte).headD 0) = true
      then [([] : List Nat)] else []) = [] := by
  cases hrem : l.dropWhile _FC_IsNewlineByte with
  | nil => rfl
  | cons d rem =>
    have hd : _FC_IsNewlineByte d = false := fcDropWhileHead _ l d rem hrem
    simp [List.headD_cons, hd]

theorem fcSplitSpecAux : ∀ (n : Nat) (buf : List Nat), buf.length ≤ n →
    _FC_SplitLines buf =
      (if _FC_IsNewlineByte (buf.headD 0) then [[]] else []) ++ specMaximalRuns buf := by
  intro n
  induction n with
  | zero =>
    intro buf hn
    have : buf = [] := List.length_eq_zero.mp (Nat.le_antisymm hn (Nat.zero_le _))
    subst this
    rfl
  | succ n ih =>
    intro buf hn
    match buf with
    | [] => rfl
    | c :: rest =>
      cases h : _FC_IsNewlineByte c with
      | true =>
        have hspec : specMaximalRuns (c :: rest) = specMaximalRuns rest := by
          rw [fcSpecConsEq, if_pos h]
        have h1 : ((c :: rest).takeWhile (fun b => !_FC_IsNewlineByte b)) = [] := by
          simp [List.takeWhile_cons, h]
        have h2 : ((c :: rest).dropWhile (fun b => !_FC_IsNewlineByte b)) = c :: rest := by
          simp [List.dropWhile_cons, h]
        have h3 : (c :: rest).dropWhile _FC_IsNewlineByte = rest.dropWhile _FC_IsNewlineByte := by
          simp [List.dropWhile_cons, h]
        have hr : (rest.dropWhile _FC_IsNewlineByte).length ≤ n :=
          Nat.le_trans (fcDropWhileLen _ rest) (Nat.le_of_succ_le_succ hn)
        rw [fcSplitConsEq, h1, h2, h3, ih _ hr, fcSpecSkipNl rest, List.headD_cons,
          if_pos h, hspec, fcDropNlFlag rest, List.nil_append, List.singleton_append]
      | false =>
        have hspec : specMaximalRuns (c :: rest) =
            (c :: rest.takeWhile (fun b => !_FC_IsNewlineByte b)) ::
              specMaximalRuns (rest.dropWhile (fun b => !_FC_IsNewlineByte b)) := by
          rw [fcSpecConsEq, if_neg (by simp [h])]
        have h1 : ((c :: rest).takeWhile (fun b => !_FC_IsNewlineByte b)) =
            c :: rest.takeWhile (fun b => !_FC_IsNewlineByte b) := by
          simp [List.takeWhile_cons, h]
        have h2 : ((c :: rest).dropWhile (fun b => !_FC_IsNewlineByte b)) =
            rest.dropWhile (fun b => !_FC_IsNewlineByte b) := by
          simp [List.dropWhile_cons, h]
        have hr : ((rest.dropWhile (fun b => !_FC_IsNewlineByte b)).dropWhile
            _FC_IsNewlineByte).length ≤ n :=
          Nat.le_trans (fcDropWhileLen _ _)
            (Nat.le_trans (fcDropWhileLen _ rest) (Nat.le_of_succ_le_succ hn))
        rw [fcSplitConsEq, h1, h2, ih _ hr,
          fcDropNlFlag (rest.dropWhile (fun b => !_FC_IsNewlineByte b)), fcSpecSkipNl,
          List.headD_cons, if_neg (by simp [h]), hspec, List.nil_append, List.nil_append]

/-- C7: amended — the extractor produces the maximal non-CR/LF runs of
the buffer in order, except that a buffer beginning with CR or LF yields
one extra empty line in front of them (so runs of CR/LF do separate, a
final unterminated line counts, a trailing terminator adds nothing, and
the empty buffer yields zero lines — but a leading terminator adds an
empty first line). -/
theorem C7_split_amended (buf : List Nat) :
    _FC_SplitLines buf =
      (if _FC_IsNewlineByte (buf.headD 0) then [[]] else []) ++ specMaximalRuns buf :=
  fcSplitSpecAux buf.length buf (Nat.le_refl _)

theorem fcBinScanEq : ∀ (a b : List Nat) (i : Nat), a.length = b.length →
    _FC_BinScan a b i =
      ((a.zip b).enumFrom i).filterMap
        (fun p => if p.2.1 ≠ p.2.2 then
          some ⟨.FC_DIFF_TYPE_CHANGE, p.1, p.2.1, p.1, p.2.2⟩ else none) := by
  intro a
  induction a with
  | nil =>
    intro b i hlen
    have : b = [] := List.length_eq_zero.mp hlen.symm
    subst this
    rfl
  | cons x xs ih =>
    intro b i hlen
    cases b with
    | nil => cases hlen
    | cons y ys =>
      simp only [_FC_BinScan, List.zip_cons_cons, List.enumFrom_cons, List.filterMap_cons]
      cases hxy : decide (x ≠ y) with
      | true =>
        have hne : x ≠ y := of_decide_eq_true hxy
        rw [if_pos hne, if_pos hne, ih ys (i + 1) (Nat.succ_injective hlen)]
        rfl
      | false =>
        have heq : ¬ x ≠ y := of_decide_eq_false hxy
        rw [if_neg heq, if_neg heq, ih ys (i + 1) (Nat.succ_injective hlen)]
        rfl

theorem fcBinScanNilIff : ∀ (a b : List Nat) (i : Nat), a.length = b.length →
    (_FC_BinScan a b i = [] ↔ a = b) := by
  intro a
  induction a with
  | nil =>
    intro b i hlen
    have : b = [] := List.length_eq_zero.mp hlen.symm
    subst this
    simp [_FC_BinScan]
  | cons x xs ih =>
    intro b i hlen
    cases b with
    | nil => cases hlen
    | cons y ys =>
      simp only [_FC_BinScan]
      by_cases hxy : x = y
      · rw [if_neg (by simp [hxy]), List.nil_append, ih ys (i + 1) (Nat.succ_injective hlen)]
        simp [hxy]
      · rw [if_pos hxy]
        simp [hxy]

/-- C3: in binary mode, on files of equal non-zero size the engine emits
exactly one binary-change block per differing byte offset, in ascending
offset order, covering the whole file, with `StartA` the offset, `EndA`
the byte of A and `EndB` the byte of B; the result is different iff some
offset differs and identical iff none does. -/
theorem C3_binary_blocks (a b : List Nat) (hlen : a.length = b.length) (hpos : 0 < a.length) :
    (_FC_CompareFilesBinary a b).2 =
      ((a.zip b).enumFrom 0).filterMap
        (fun p => if p.2.1 ≠ p.2.2 then
          some ⟨.FC_DIFF_TYPE_CHANGE, p.1, p.2.1, p.1, p.2.2⟩ else none) ∧
    ((_FC_CompareFilesBinary a b).1 = .FC_DIFFERENT ↔ a ≠ b) ∧
    ((_FC_CompareFilesBinary a b).1 = .FC_OK ↔ a = b) := by
  unfold _FC_CompareFilesBinary
  rw [if_neg (by simp [hlen]), if_neg (by simp [Nat.ne_of_gt hpos])]
  refine ⟨fcBinScanEq a b 0 hlen, ?_, ?_⟩
  · by_cases hab : a = b
    · rw [if_pos (by simp [List.isEmpty_iff, (fcBinScanNilIff a b 0 hlen).mpr hab])]
      simp [hab]
    · rw [if_neg (by simp [List.isEmpty_iff, hab, fcBinScanNilIff a b 0 hlen])]
      simp [hab]
  · by_cases hab : a = b
    · rw [if_pos (by simp [List.isEmpty_iff, (fcBinScanNilIff a b 0 hlen).mpr hab])]
      simp [hab]
    · rw [if_neg (by simp [List.isEmpty_iff, hab, fcBinScanNilIff a b 0 hlen])]
      simp [hab]

/-- C3: witness — spec scenario 6: bytes `{0,0xFF,0x7F,0x80}` against
`{0,0xFF,0x7E,0x80}` give one binary-change block at offset 2 with
`EndA = 0x7F`, `EndB = 0x7E`, and the result is different. -/
theorem C3_binary_blocks_witness :
    (_FC_CompareFilesBinary [0, 255, 127, 128] [0, 255, 126, 128]).2 =
      ((([0, 255, 127, 128] : List Nat).zip [(0 : Nat), 255, 126, 128]).enumFrom 0).filterMap
        (fun p => if p.2.1 ≠ p.2.2 then
          some ⟨.FC_DIFF_TYPE_CHANGE, p.1, p.2.1, p.1, p.2.2⟩ else none) ∧
    ((_FC_CompareFilesBinary [0, 255, 127, 128] [0, 255, 126, 128]).1 = .FC_DIFFERENT ↔
      [(0 : Nat), 255, 127, 128] ≠ [0, 255, 126, 128]) ∧
    ((_FC_CompareFilesBinary [0, 255, 127, 128] [0, 255, 126, 128]).1 = .FC_OK ↔
      [(0 : Nat), 255, 127, 128] = [0, 255, 126, 128]) :=
  C3_binary_blocks [0, 255, 127, 128] [0, 255, 126, 128] rfl (by decide)

theorem fcHashLineNoCase (uniLower : List Nat → List Nat) (s : List Nat) (flags r : Nat)
    (m1 m2 : FC_MODE) (hc : hasFlag flags FC_IGNORE_CASE = false) :
    _FC_HashLine uniLower s ⟨m1, flags, r⟩ = _FC_HashLine uniLower s ⟨m2, flags, r⟩ := by
  unfold _FC_HashLine
  rw [if_neg (by simp [hc]), if_neg (by simp [hc])]

theorem fcParseNoCase (uniLower : List Nat → List Nat) (flags r : Nat) (m1 m2 : FC_MODE)
    (buf : List Nat) (hc : hasFlag flags FC_IGNORE_CASE = false) :
    _FC_ParseLines uniLower ⟨m1, flags, r⟩ buf = _FC_ParseLines uniLower ⟨m2, flags, r⟩ buf := by
  unfold _FC_ParseLines
  congr 1
  funext raw
  simp only [fcHashLineNoCase uniLower _ flags r m1 m2 hc]
  rfl

/-- C10: for configurations without `FC_IGNORE_CASE`, text-ASCII mode and
text-Unicode mode produce the same result and the same sequence of
emitted blocks on every pair of file contents: the dispatcher sends both
modes to the one `_FC_CompareFilesText` path, whose sole dependence on
the mode is the Unicode lowercasing applied before fingerprinting when
ignore-case is set. -/
theorem C10_mode_equivalence (uniLower : List Nat → List Nat) (flags resync : Nat)
    (buf1 buf2 : List Nat) (hc : hasFlag flags FC_IGNORE_CASE = false) :
    _FC_CompareFilesInternal uniLower ⟨.FC_MODE_TEXT_ASCII, flags, resync⟩ buf1 buf2 =
      _FC_CompareFilesInternal uniLower ⟨.FC_MODE_TEXT_UNICODE, flags, resync⟩ buf1 buf2 := by
  show _FC_CompareFilesText uniLower ⟨.FC_MODE_TEXT_ASCII, flags, resync⟩ buf1 buf2 =
    _FC_CompareFilesText uniLower ⟨.FC_MODE_TEXT_UNICODE, flags, resync⟩ buf1 buf2
  unfold _FC_CompareFilesText
  rw [fcParseNoCase uniLower flags resync _ .FC_MODE_TEXT_UNICODE buf1 hc,
    fcParseNoCase uniLower flags resync _ .FC_MODE_TEXT_UNICODE buf2 hc]

/-- C10: witness — with `Flags = FC_IGNORE_WS ||| FC_RAW_TABS` (no
ignore-case) the two text modes agree on a concrete pair of buffers. -/
theorem C10_mode_equivalence_witness :
    _FC_CompareFilesInternal unicodeLowerModel ⟨.FC_MODE_TEXT_ASCII, 10, 2⟩
      [97, 98, 10, 99] [97, 32, 98, 10, 99] =
      _FC_CompareFilesInternal unicodeLowerModel ⟨.FC_MODE_TEXT_UNICODE, 10, 2⟩
        [97, 98, 10, 99] [97, 32, 98, 10, 99] :=
  C10_mode_equivalence unicodeLowerModel 10 2 [97, 98, 10, 99] [97, 32, 98, 10, 99] (by decide)

/-- C5: counterexample — under the spec-modelled OS resolution, the path
`CON.txt` has last component `CON.txt`, whose extension-stripped form is
case-insensitively `CON` (a reserved DOS device name), yet
`_FC_ToCanonicalPath` accepts it: the repository's reserved-name check
compares the whole basename, extension included. -/
theorem C5_reserved_counterexample :
    rtlResolveModel [67, 79, 78, 46, 116, 120, 116] =
      some [92, 63, 63, 92, 67, 58, 92, 119, 111, 114, 107, 92,
        67, 79, 78, 46, 116, 120, 116] ∧
    _FC_WcsIEq (specStripExtension (_FC_BaseNameOf
      [92, 63, 63, 92, 67, 58, 92, 119, 111, 114, 107, 92,
        67, 79, 78, 46, 116, 120, 116])) [67, 79, 78] = true ∧
    _FC_ToCanonicalPath rtlResolveModel [67, 79, 78, 46, 116, 120, 116] ≠ none := by decide

/-- C5: amended — for every input path whose OS-resolved NT path has a
last component that, compared case-insensitively WITH its extension
included, equals one of the reserved DOS device names, path
canonicalization rejects the path, and `FC_CompareFilesW` returns
invalid-param. -/
theorem C5_reserved_amended (resolve : List Nat → Option (List Nat))
    (inner : List Nat → List Nat → FC_RESULT) (p p2 nt : List Nat)
    (hres : resolve p = some nt)
    (hbase : g_ReservedDevices.any (fun d => _FC_WcsIEq (_FC_BaseNameOf nt) d) = true) :
    _FC_ToCanonicalPath resolve p = none ∧
      FC_CompareFilesW resolve inner p p2 = .FC_ERROR_INVALID_PARAM := by
  have hcan : _FC_ToCanonicalPath resolve p = none := by
    simp only [_FC_ToCanonicalPath, hres]
    by_cases h8 : 8 ≤ nt.length ∧
        (_FC_WcsNIEqHead _FC_DevStr nt || _FC_WcsNIEqHead _FC_PipeStr nt) = true
    · rw [if_pos h8]
    · rw [if_neg h8, if_pos hbase]
  refine ⟨hcan, ?_⟩
  unfold FC_CompareFilesW
  rw [hcan]

/-- C5: witness — the path `CON` itself resolves to an NT path with
basename `CON` and is rejected, the entry point returning
invalid-param. -/
theorem C5_reserved_witness :
    _FC_ToCanonicalPath rtlResolveModel [67, 79, 78] = none ∧
      FC_CompareFilesW rtlResolveModel (fun _ _ => .FC_OK) [67, 79, 78] [97] =
        .FC_ERROR_INVALID_PARAM :=
  C5_reserved_amended rtlResolveModel (fun _ _ => .FC_OK) [67, 79, 78] [97]
    [92, 63, 63, 92, 67, 58, 92, 119, 111, 114, 107, 92, 67, 79, 78] (by decide) (by decide)

theorem sAdd1_le (x : Nat) : sAdd1 x ≤ x + 1 := Nat.mod_le _ _

theorem fcEmitNilBounds : ∀ (l : List (Nat × Nat)) (nA nB ia ib : Nat),
    _FC_EmitBlocks nA nB l ia ib = [] → nA ≤ ia + l.length ∧ nB ≤ ib + l.length := by
  intro l
  induction l with
  | nil =>
    intro nA nB ia ib h
    simp only [_FC_EmitBlocks] at h
    by_cases hc : ia < nA ∨ ib < nB
    · rw [if_pos hc] at h; cases h
    · push_neg at hc
      simpa using ⟨hc.1, hc.2⟩
  | cons p rest ih =>
    intro nA nB ia ib h
    obtain ⟨aa, bb⟩ := p
    simp only [_FC_EmitBlocks] at h
    obtain ⟨h1, h2⟩ := List.append_eq_nil.mp h
    have hc : ¬ (ia < aa ∨ ib < bb) := by
      intro hc; rw [if_pos hc] at h1; cases h1
    push_neg at hc
    obtain ⟨hrA, hrB⟩ := ih nA nB (sAdd1 aa) (sAdd1 bb) h2
    have ha1 := sAdd1_le aa
    have hb1 := sAdd1_le bb
    have hca := hc.1
    have hcb := hc.2
    simp only [List.length_cons]
    omega

theorem fcFilterRunsAuxLen : ∀ (fuel : Nat) (l : List (Nat × Nat)) (r : Nat),
    (_FC_FilterRunsAux r fuel l).length ≤ l.length := by
  intro fuel
  induction fuel with
  | zero => intro l r; exact Nat.zero_le _
  | succ fuel ih =>
    intro l r
    cases l with
    | nil => exact Nat.zero_le _
    | cons p rest =>
      simp only [_FC_FilterRunsAux, List.length_append, List.length_cons]
      have h1 := ih (rest.drop (_FC_RunLen p rest)) r
      have h2 := List.length_drop (_FC_RunLen p rest) rest
      have h3 := List.length_take (_FC_RunLen p rest) rest
      by_cases hk : r ≤ _FC_RunLen p rest + 1
      · rw [if_pos hk]
        simp only [List.length_cons]
        omega
      · rw [if_neg hk]
        simp only [List.length_nil]
        omega

theorem fcFilterLen (l : List (Nat × Nat)) (r : Nat) :
    (_FC_FilterLcsForResync l r).length ≤ l.length := by
  unfold _FC_FilterLcsForResync
  split
  · exact Nat.le_refl _
  · exact fcFilterRunsAuxLen l.length l r

theorem fcTraceLoopLen (st : _FC_LCS_CONTEXT) : ∀ (i cA cB : Nat),
    (_FC_TraceLoop st i cA cB).length = i := by
  intro i
  induction i with
  | zero => intro cA cB; rfl
  | succ i ih =>
    intro cA cB
    simp only [_FC_TraceLoop]
    split
    · simp
    · simp [ih]

theorem fcPairsLen (A B : List Nat) :
    (_FC_FindLcsPairs A B).2.length = (_FC_FindLcsPairs A B).1 := by
  simp only [_FC_FindLcsPairs]
  by_cases h : 0 < (_FC_LcsScan A B).LcsLength
  · rw [if_pos h]
    exact fcTraceLoopLen _ _ _ _
  · rw [if_neg h]
    simp only [List.length_nil]
    omega

theorem fcBinSearchAuxPost (th : Nat → Nat) (b : Nat) : ∀ (fuel low high : Nat),
    1 ≤ low → low ≤ high + 1 → (2 ≤ low → th (low - 1) < b) →
    1 ≤ _FC_LcsBinSearchAux th b fuel low high ∧
      _FC_LcsBinSearchAux th b fuel low high ≤ high + 1 ∧
      (2 ≤ _FC_LcsBinSearchAux th b fuel low high →
        th (_FC_LcsBinSearchAux th b fuel low high - 1) < b) := by
  intro fuel
  induction fuel with
  | zero => intro low high h1 h2 h3; exact ⟨h1, h2, h3⟩
  | succ fuel ih =>
    intro low high h1 h2 h3
    simp only [_FC_LcsBinSearchAux]
    by_cases hlh : low ≤ high
    · rw [if_pos hlh]
      have hmlo : low ≤ low + (high - low) / 2 := Nat.le_add_right _ _
      have hmhi : low + (high - low) / 2 ≤ high := by omega
      by_cases hcmp : th (low + (high - low) / 2) < b
      · rw [if_pos hcmp]
        have hpost := ih (low + (high - low) / 2 + 1) high (by omega) (by omega)
          (fun _ => by simpa using hcmp)
        exact hpost
      · rw [if_neg hcmp]
        have hpost := ih low (low + (high - low) / 2 - 1) h1 (by omega) h3
        exact ⟨hpost.1, by omega, hpost.2.2⟩
    · rw [if_neg hlh]
      exact ⟨h1, h2, h3⟩

theorem fcBinSearchPost (th : Nat → Nat) (b len : Nat) :
    1 ≤ _FC_LcsBinSearch th b len ∧ _FC_LcsBinSearch th b len ≤ len + 1 ∧
      (2 ≤ _FC_LcsBinSearch th b len → th (_FC_LcsBinSearch th b len - 1) < b) :=
  fcBinSearchAuxPost th b (len + 2) 1 len (Nat.le_refl 1) (by omega) (by omega)

/-- The two threshold-array invariants of the Hunt-McIlroy scan used by
the emptiness analysis: every occupied slot holds a real B-index, and the
occupied slots are strictly increasing. -/
def LcsInv (nB : Nat) (st : _FC_LCS_CONTEXT) : Prop :=
  (∀ k, 1 ≤ k → k ≤ st.LcsLength → st.Thresholds k < nB) ∧
  (∀ i j, 1 ≤ i → i < j → j ≤ st.LcsLength → st.Thresholds i < st.Thresholds j)

theorem fcUpdateInv (nB : Nat) (st : _FC_LCS_CONTEXT) (i b L0 : Nat)
    (hinv : LcsInv nB st) (hb : b < nB)
    (hlen : st.LcsLength ≤ L0 + 1)
    (hcap : st.LcsLength = L0 + 1 → b < st.Thresholds (L0 + 1)) :
    LcsInv nB (_FC_LcsUpdate st i b) ∧
      (_FC_LcsUpdate st i b).LcsLength ≤ L0 + 1 ∧
      (∀ b', b' < b → (_FC_LcsUpdate st i b).LcsLength = L0 + 1 →
        b' < (_FC_LcsUpdate st i b).Thresholds (L0 + 1)) := by
  obtain ⟨hbnd, hmono⟩ := hinv
  obtain ⟨hk1, hk2, hk3⟩ := fcBinSearchPost st.Thresholds b st.LcsLength
  by_cases hup : b < st.Thresholds (_FC_LcsBinSearch st.Thresholds b st.LcsLength)
  case neg =>
    have hstruct : _FC_LcsUpdate st i b = st := by
      unfold _FC_LcsUpdate
      rw [if_neg hup]
    rw [hstruct]
    exact ⟨⟨hbnd, hmono⟩, hlen, fun b' hb' hl => Nat.lt_trans hb' (hcap hl)⟩
  case pos =>
    have hkle : _FC_LcsBinSearch st.Thresholds b st.LcsLength ≤ L0 + 1 := by
      by_contra hgt
      push_neg at hgt
      have hklen : st.LcsLength = L0 + 1 := by omega
      have hlt := hk3 (by omega)
      have hk1eq : _FC_LcsBinSearch st.Thresholds b st.LcsLength - 1 = L0 + 1 := by omega
      rw [hk1eq] at hlt
      exact absurd (hcap hklen) (by omega)
    have hstruct : _FC_LcsUpdate st i b =
        { Thresholds := updFn st.Thresholds (_FC_LcsBinSearch st.Thresholds b st.LcsLength) b
          PredecessorsA := updFn st.PredecessorsA i
            (if 1 < _FC_LcsBinSearch st.Thresholds b st.LcsLength then
              st.Thresholds (_FC_LcsBinSearch st.Thresholds b st.LcsLength - 1) else SIZE_MAX)
          PredecessorsB := updFn st.PredecessorsB i b
          LcsLength := if st.LcsLength < _FC_LcsBinSearch st.Thresholds b st.LcsLength then
            _FC_LcsBinSearch st.Thresholds b st.LcsLength else st.LcsLength } := by
      unfold _FC_LcsUpdate
      rw [if_pos hup]
    rw [hstruct]
    set k := _FC_LcsBinSearch st.Thresholds b st.LcsLength with hkdef
    refine ⟨⟨?_, ?_⟩, ?_, ?_⟩
    · -- bound on occupied slots
      intro k' h1' h2'
      dsimp only at h2' ⊢
      simp only [updFn]
      by_cases hkk : k' = k
      · rw [if_pos hkk]
        exact hb
      · rw [if_neg hkk]
        apply hbnd k' h1'
        by_cases hl : st.LcsLength < k
        · rw [if_pos hl] at h2'
          omega
        · rw [if_neg hl] at h2'
          exact h2'
    · -- strict monotonicity
      intro i' j' h1' hij hj'
      dsimp only at hj' ⊢
      simp only [updFn]
      have hjlen : j' ≤ (if st.LcsLength < k then k else st.LcsLength) := hj'
      by_cases hik : i' = k
      · rw [if_pos hik]
        have hjk : j' ≠ k := by omega
        rw [if_neg hjk]
        -- i' = k < j' ≤ len' implies len' = st.LcsLength and j' ≤ st.LcsLength
        have hjle : j' ≤ st.LcsLength := by
          by_cases hl : st.LcsLength < k
          · rw [if_pos hl] at hjlen; omega
          · rw [if_neg hl] at hjlen; exact hjlen
        exact Nat.lt_trans hup (hmono k j' (by omega) (by omega) hjle)
      · rw [if_neg hik]
        by_cases hjk : j' = k
        · rw [if_pos hjk]
          -- th i' < b for i' < k
          by_cases hik1 : i' = k - 1
          · rw [hik1]
            exact hk3 (by omega)
          · have hi'lt : i' < k - 1 := by omega
            have hstep : st.Thresholds i' < st.Thresholds (k - 1) :=
              hmono i' (k - 1) h1' hi'lt (by omega)
            exact Nat.lt_trans hstep (hk3 (by omega))
        · rw [if_neg hjk]
          apply hmono i' j' h1' hij
          by_cases hl : st.LcsLength < k
          · rw [if_pos hl] at hjlen; omega
          · rw [if_neg hl] at hjlen; exact hjlen
    · -- the new length stays at most L0 + 1
      dsimp only
      by_cases hl : st.LcsLength < k
      · rw [if_pos hl]; exact hkle
      · rw [if_neg hl]; exact hlen
    · -- remaining smaller candidates stay below the capping slot
      intro b' hb' hl'
      dsimp only at hl' ⊢
      simp only [updFn]
      by_cases hkk : L0 + 1 = k
      · rw [if_pos hkk]
        exact hb'
      · rw [if_neg hkk]
        have hkne : k ≠ L0 + 1 := fun h => hkk h.symm
        have hlen' : st.LcsLength = L0 + 1 := by
          by_cases hl : st.LcsLength < k
          · rw [if_pos hl] at hl'; omega
          · rw [if_neg hl] at hl'; exact hl'
        exact Nat.lt_trans hb' (hcap hlen')

theorem fcMatchesLt (B : List Nat) (h : Nat) : ∀ b ∈ _FC_MatchesOf B h, b < B.length := by
  intro b hb
  unfold _FC_MatchesOf at hb
  rw [List.mem_reverse] at hb
  exact List.mem_range.mp (List.mem_of_mem_filter hb)

theorem fcMatchesSorted (B : List Nat) (h : Nat) :
    List.Pairwise (· > ·) (_FC_MatchesOf B h) := by
  unfold _FC_MatchesOf
  rw [List.pairwise_reverse]
  exact List.Pairwise.filter _ (List.pairwise_lt_range B.length)

theorem fcLineInv (nB L0 : Nat) : ∀ (bs : List Nat) (st : _FC_LCS_CONTEXT) (i : Nat),
    LcsInv nB st → st.LcsLength ≤ L0 + 1 →
    (st.LcsLength = L0 + 1 → ∀ b ∈ bs, b < st.Thresholds (L0 + 1)) →
    List.Pairwise (· > ·) bs → (∀ b ∈ bs, b < nB) →
    LcsInv nB (_FC_LcsLine st i bs) ∧ (_FC_LcsLine st i bs).LcsLength ≤ L0 + 1 := by
  intro bs
  induction bs with
  | nil => intro st i h1 h2 _ _ _; exact ⟨h1, h2⟩
  | cons b bs ih =>
    intro st i h1 h2 hcap hpw hlt
    have hb : b < nB := hlt b (List.mem_cons_self _ _)
    obtain ⟨hhd, htl⟩ := List.pairwise_cons.mp hpw
    obtain ⟨hinv', hlen', hcap'⟩ := fcUpdateInv nB st i b L0 h1 hb h2
      (fun hl => hcap hl b (List.mem_cons_self _ _))
    have hline : _FC_LcsLine st i (b :: bs) = _FC_LcsLine (_FC_LcsUpdate st i b) i bs := rfl
    rw [hline]
    exact ih (_FC_LcsUpdate st i b) i hinv' hlen'
      (fun hl b' hb' => hcap' b' (hhd b' hb') hl) htl
      (fun b' hb' => hlt b' (List.mem_cons_of_mem _ hb'))

theorem fcScanFoldInv (B : List Nat) : ∀ (l : List (Nat × Nat)) (st : _FC_LCS_CONTEXT) (c : Nat),
    LcsInv B.length st → st.LcsLength ≤ c →
    LcsInv B.length (l.foldl (fun s p => _FC_LcsLine s p.1 (_FC_MatchesOf B p.2)) st) ∧
      (l.foldl (fun s p => _FC_LcsLine s p.1 (_FC_MatchesOf B p.2)) st).LcsLength ≤
        c + l.length := by
  intro l
  induction l with
  | nil => intro st c h1 h2; exact ⟨h1, by simpa using h2⟩
  | cons p rest ih =>
    intro st c h1 h2
    obtain ⟨hinv', hlen'⟩ := fcLineInv B.length st.LcsLength (_FC_MatchesOf B p.2) st p.1 h1
      (Nat.le_succ _) (fun hl => absurd hl (by omega)) (fcMatchesSorted B p.2)
      (fcMatchesLt B p.2)
    have hfold : (p :: rest).foldl (fun s q => _FC_LcsLine s q.1 (_FC_MatchesOf B q.2)) st =
        rest.foldl (fun s q => _FC_LcsLine s q.1 (_FC_MatchesOf B q.2))
          (_FC_LcsLine st p.1 (_FC_MatchesOf B p.2)) := rfl
    rw [hfold]
    obtain ⟨hres1, hres2⟩ := ih (_FC_LcsLine st p.1 (_FC_MatchesOf B p.2)) (c + 1) hinv'
      (by omega)
    refine ⟨hres1, ?_⟩
    simp only [List.length_cons]
    omega

theorem fcScanInv (A B : List Nat) :
    LcsInv B.length (_FC_LcsScan A B) ∧ (_FC_LcsScan A B).LcsLength ≤ A.length := by
  have hj0 : _FC_LcsInit.LcsLength = 0 := rfl
  have hinit : LcsInv B.length _FC_LcsInit := by
    constructor
    · intro k h1 h2
      have hk0 : k ≤ 0 := hj0 ▸ h2
      omega
    · intro i j h1 hij hj
      have hj0' : j ≤ 0 := hj0 ▸ hj
      omega
  obtain ⟨h1, h2⟩ := fcScanFoldInv B A.enum _FC_LcsInit 0 hinit (Nat.le_refl 0)
  exact ⟨h1, by simpa [List.enum_length] using h2⟩

theorem fcLenLeNB (nB : Nat) (st : _FC_LCS_CONTEXT) (hinv : LcsInv nB st) :
    st.LcsLength ≤ nB := by
  obtain ⟨hbnd, hmono⟩ := hinv
  by_cases h0 : st.LcsLength = 0
  · omega
  have hchain : ∀ k, 1 ≤ k → k ≤ st.LcsLength → k - 1 ≤ st.Thresholds k := by
    intro k
    induction k with
    | zero => intro h _; cases h
    | succ k ihk =>
      intro _ hk
      by_cases hk0 : k = 0
      · subst hk0; omega
      · have hprev := ihk (by omega) (by omega)
        have hstep := hmono k (k + 1) (by omega) (by omega) hk
        omega
  have h1 := hchain st.LcsLength (by omega) (Nat.le_refl _)
  have h2 := hbnd st.LcsLength (by omega) (Nat.le_refl _)
  omega

theorem fcFindLcsNoBlock (A B : List Nat) (r : Nat) (hA : A ≠ []) (hB : B ≠ [])
    (hb : (_FC_FindLcs A B r).2 = []) :
    (_FC_FindLcs A B r).1 = .FC_OK ∨ (_FC_FindLcs A B r).1 = .FC_ERROR_MEMORY := by
  have hA' : 0 < A.length := List.length_pos.mpr hA
  have hB' : 0 < B.length := List.length_pos.mpr hB
  by_cases hfull : (_FC_FindLcsPairs A B).1 = A.length ∧ (_FC_FindLcsPairs A B).1 = B.length
  · have heq : _FC_FindLcs A B r = (.FC_OK, []) := by
      simp only [_FC_FindLcs]
      rw [if_neg (by omega), if_neg (by omega), if_neg (by omega), if_pos hfull]
    rw [heq]
    left
    rfl
  · by_cases hmem : 0 < (_FC_FindLcsPairs A B).1 ∧
        (_FC_FilterLcsForResync (_FC_FindLcsPairs A B).2 r).length = 0
    · have heq : _FC_FindLcs A B r = (.FC_ERROR_MEMORY, []) := by
        simp only [_FC_FindLcs]
        rw [if_neg (by omega), if_neg (by omega), if_neg (by omega), if_neg hfull, if_pos hmem]
      rw [heq]
      right
      rfl
    · have heq : _FC_FindLcs A B r =
          _FC_ProcessLcs A.length B.length
            (_FC_FilterLcsForResync (_FC_FindLcsPairs A B).2 r) := by
        simp only [_FC_FindLcs]
        rw [if_neg (by omega), if_neg (by omega), if_neg (by omega), if_neg hfull, if_neg hmem]
      rw [heq] at hb ⊢
      by_cases hcov : (_FC_FilterLcsForResync (_FC_FindLcsPairs A B).2 r).length = A.length ∧
          (_FC_FilterLcsForResync (_FC_FindLcsPairs A B).2 r).length = B.length
      · have heq2 : _FC_ProcessLcs A.length B.length
            (_FC_FilterLcsForResync (_FC_FindLcsPairs A B).2 r) = (.FC_OK, []) := by
          unfold _FC_ProcessLcs
          rw [if_pos hcov]
        rw [heq2]
        left
        rfl
      · exfalso
        have heq2 : _FC_ProcessLcs A.length B.length
            (_FC_FilterLcsForResync (_FC_FindLcsPairs A B).2 r) =
            (.FC_DIFFERENT, _FC_EmitBlocks A.length B.length
              (_FC_FilterLcsForResync (_FC_FindLcsPairs A B).2 r) 0 0) := by
          unfold _FC_ProcessLcs
          rw [if_neg hcov]
        rw [heq2] at hb
        obtain ⟨hba, hbb⟩ := fcEmitNilBounds _ A.length B.length 0 0 hb
        have hflen : (_FC_FilterLcsForResync (_FC_FindLcsPairs A B).2 r).length ≤
            (_FC_FindLcsPairs A B).2.length := fcFilterLen _ r
        have hplen := fcPairsLen A B
        obtain ⟨hinv, hlenA⟩ := fcScanInv A B
        have hlenB : (_FC_LcsScan A B).LcsLength ≤ B.length := fcLenLeNB B.length _ hinv
        have hP1 : (_FC_FindLcsPairs A B).1 = (_FC_LcsScan A B).LcsLength := rfl
        omega

/-- C2: amended — in text modes, a comparison that invokes the callback
with no diff block at all returns identical, unless exactly one of the
two normalized line sequences is empty — then the engine returns
different with no block emitted at all (not one big delete/add block) —
or the engine misreports an all-dropped resync filter result as
memory-error (again with no block). -/
theorem C2_noblock_amended (uniLower : List Nat → List Nat) (cfg : FC_CONFIG)
    (buf1 buf2 : List Nat) :
    ((_FC_CompareFilesText uniLower cfg buf1 buf2).2 = [] →
      _FC_ParseLines uniLower cfg buf1 ≠ [] → _FC_ParseLines uniLower cfg buf2 ≠ [] →
      (_FC_CompareFilesText uniLower cfg buf1 buf2).1 = .FC_OK ∨
        (_FC_CompareFilesText uniLower cfg buf1 buf2).1 = .FC_ERROR_MEMORY) ∧
    (_FC_ParseLines uniLower cfg buf1 ≠ [] → _FC_ParseLines uniLower cfg buf2 = [] →
      _FC_CompareFilesText uniLower cfg buf1 buf2 = (.FC_DIFFERENT, [])) ∧
    (_FC_ParseLines uniLower cfg buf1 = [] → _FC_ParseLines uniLower cfg buf2 ≠ [] →
      _FC_CompareFilesText uniLower cfg buf1 buf2 = (.FC_DIFFERENT, [])) := by
  refine ⟨?_, ?_, ?_⟩
  · intro hb h1 h2
    exact fcFindLcsNoBlock _ _ _ (by simpa [List.map_eq_nil_iff] using h1)
      (by simpa [List.map_eq_nil_iff] using h2) hb
  · intro h1 h2
    show _FC_FindLcs _ _ _ = _
    have hA' : 0 < ((_FC_ParseLines uniLower cfg buf1).map _FC_LINE.Hash).length := by
      simp [List.length_pos, h1]
    have hB0 : ((_FC_ParseLines uniLower cfg buf2).map _FC_LINE.Hash).length = 0 := by
      simp [h2]
    simp only [_FC_FindLcs]
    rw [if_neg (by omega), if_pos ⟨hA', hB0⟩]
  · intro h1 h2
    show _FC_FindLcs _ _ _ = _
    have hA0 : ((_FC_ParseLines uniLower cfg buf1).map _FC_LINE.Hash).length = 0 := by
      simp [h1]
    have hB' : 0 < ((_FC_ParseLines uniLower cfg buf2).map _FC_LINE.Hash).length := by
      simp [List.length_pos, h2]
    simp only [_FC_FindLcs]
    rw [if_neg (by omega), if_neg (by omega), if_pos ⟨hA0, hB'⟩]

/-- C2: witness — comparing the one-line file `"a"` with the empty file:
one normalized sequence is empty and the other is not, and the engine
returns different having emitted no block. -/
theorem C2_noblock_witness :
    _FC_CompareFilesText unicodeLowerModel ⟨.FC_MODE_TEXT_ASCII, 0, 2⟩ [97] [] =
      (.FC_DIFFERENT, []) :=
  (C2_noblock_amended unicodeLowerModel ⟨.FC_MODE_TEXT_ASCII, 0, 2⟩ [97] []).2.1
    (by decide) (by decide)

/-- C2: counterexample — on `A = "a"`, `B` empty (text-ASCII, no flags,
`ResyncLines = 2`) the comparison invokes the callback zero times yet
returns different, and emits no big delete block `[0,1) × [0,0)`:
both parts of the claim fail at this input. -/
theorem C2_noblock_counterexample :
    _FC_CompareFilesText unicodeLowerModel ⟨.FC_MODE_TEXT_ASCII, 0, 2⟩ [97] [] =
      (.FC_DIFFERENT, []) ∧
    FC_RESULT.FC_DIFFERENT ≠ .FC_OK ∧
    ([] : List FC_DIFF_BLOCK) ≠ [⟨.FC_DIFF_TYPE_DELETE, 0, 1, 0, 0⟩] := by decide
